import Mathlib

/-!
Verification of the consensus-document subsystem (`src/consensus.rs`).

The Rust source is shallowly embedded below.  Fallible library calls and
panics (`unwrap`, `expect`, `assert_eq!`, `panic!`, `unreachable!`, index
out of bounds, `Uniform::new` on an empty range) are modelled by `Option`:
a result of `none` means the original code aborts instead of returning.
Machine integers (`u16`, `u32` bit sets, `usize`) are modelled as `Nat`;
no arithmetic in this file can overflow `u32`/`usize` ranges on the
inputs the code accepts, except where noted.
-/

/- ### Tokenization: `str::lines` and `str::split_whitespace` -/

/-- Split a character list at every newline, keeping empty pieces
(the helper behind the model of Rust `str::lines`). -/
def splitLinesAux : List Char → List Char → List (List Char)
  | acc, [] => [acc.reverse]
  | acc, '\n' :: rest => acc.reverse :: splitLinesAux [] rest
  | acc, c :: rest => splitLinesAux (c :: acc) rest

/-- Drop one trailing carriage return, as Rust `str::lines` does per line. -/
def stripTrailingCr (l : List Char) : List Char :=
  if l.getLast? = some '\r' then l.dropLast else l

/-- Model of Rust `str::lines`: split on newline, do not yield a final empty
line when the text ends with a newline, and strip a trailing `\r`. -/
def rustLines (s : String) : List (List Char) :=
  match s.data with
  | [] => []
  | cs =>
    let parts := splitLinesAux [] cs
    let parts := if cs.getLast? = some '\n' then parts.dropLast else parts
    parts.map stripTrailingCr

/-- Helper behind the model of Rust `str::split_whitespace`: whitespace runs
separate tokens and produce no empty tokens. -/
def splitTokensAux : List Char → List Char → List String
  | acc, [] => if acc.isEmpty then [] else [String.mk acc.reverse]
  | acc, c :: rest =>
    if c.isWhitespace then
      if acc.isEmpty then splitTokensAux [] rest
      else String.mk acc.reverse :: splitTokensAux [] rest
    else splitTokensAux (c :: acc) rest

/-- Model of Rust `str::split_whitespace` on one line. -/
def splitWhitespace (cs : List Char) : List String :=
  splitTokensAux [] cs

/-- Split a character list at every occurrence of `sep`, keeping empty
pieces (model of Rust `str::split` with a single-character pattern). -/
def splitOnCharAux (sep : Char) : List Char → List Char → List (List Char)
  | acc, [] => [acc.reverse]
  | acc, c :: rest =>
    if c = sep then acc.reverse :: splitOnCharAux sep [] rest
    else splitOnCharAux sep (c :: acc) rest

/- ### Numeric token parsing -/

/-- Numeric value of a decimal digit character. -/
def digitVal (c : Char) : Nat := c.toNat - 48

/-- Decimal parse of a character run: `some` exactly when the run is
nonempty and all digits (the digit core of Rust `str::parse::<uN>`). -/
def charsToNat? (cs : List Char) : Option Nat :=
  if cs.isEmpty then none
  else if cs.all Char.isDigit then
    some (cs.foldl (fun n c => n * 10 + digitVal c) 0)
  else none

/-- Model of Rust `str::parse::<u16>` (line 108/109): digits only, value at
most 65535.  (The leading `+` sign Rust also accepts is not modelled; no
claim depends on it.) -/
def parseU16? (s : String) : Option Nat :=
  match charsToNat? s.data with
  | some n => if n ≤ 65535 then some n else none
  | none => none

/-- One octet of an IPv4 address: Rust's `Ipv4Addr` parser rejects empty
runs, non-digits, values above 255 and leading zeros. -/
def parseOctet? (cs : List Char) : Option Nat :=
  match charsToNat? cs with
  | some n =>
    if n ≤ 255 ∧ (cs.length = 1 ∨ cs.head? ≠ some '0') then some n else none
  | none => none

/-- An IPv4 address as its four octets (model of `std::net::Ipv4Addr`). -/
structure Ipv4 where
  o1 : Nat
  o2 : Nat
  o3 : Nat
  o4 : Nat
deriving DecidableEq, Repr

/-- Model of `str::parse::<Ipv4Addr>` (line 107). -/
def parseIpv4? (s : String) : Option Ipv4 :=
  match splitOnCharAux '.' [] s.data with
  | [a, b, c, d] =>
    match parseOctet? a, parseOctet? b, parseOctet? c, parseOctet? d with
    | some x1, some x2, some x3, some x4 => some ⟨x1, x2, x3, x4⟩
    | _, _, _, _ => none
  | _ => none

/- ### Datetime parsing: `NaiveDateTime::parse_from_str "%Y-%m-%d %H:%M:%S"` -/

/-- Gregorian leap-year rule (as in chrono's calendar). -/
def isLeapYear (y : Nat) : Bool :=
  y % 4 = 0 && (y % 100 != 0 || y % 400 = 0)

/-- Number of days of month `m` in year `y`. -/
def daysInMonth (y m : Nat) : Nat :=
  if m = 2 then (if isLeapYear y then 29 else 28)
  else if m = 4 ∨ m = 6 ∨ m = 9 ∨ m = 11 then 30
  else 31

/-- A UTC datetime on a single monotone scale: the six validated calendar
fields packed so that chronological order of valid datetimes coincides
with `Nat` order (months fit in 12 slots, days in 31, hours in 24,
minutes and seconds in 60).  This is the model of `DateTime<Utc>`. -/
def mkKey (y m d h mi s : Nat) : Nat :=
  ((((y * 12 + (m - 1)) * 31 + (d - 1)) * 24 + h) * 60 + mi) * 60 + s

/-- Model of `NaiveDateTime::parse_from_str(format!("{} {}", strs[1], strs[2]),
"%Y-%m-%d %H:%M:%S")` (lines 71-74 and 83-86), applied to the two tokens:
split the date on `-` and the time on `:`, require decimal fields, and
validate the calendar ranges.  (chrono's leap-second `60` and its exact
digit-width rules are not modelled; no claim depends on them.) -/
def parseDatetime? (date time : String) : Option Nat :=
  match splitOnCharAux '-' [] date.data, splitOnCharAux ':' [] time.data with
  | [ys, ms, ds], [hs, mis, ss] =>
    match charsToNat? ys, charsToNat? ms, charsToNat? ds,
          charsToNat? hs, charsToNat? mis, charsToNat? ss with
    | some y, some m, some d, some h, some mi, some s =>
      if 1 ≤ m ∧ m ≤ 12 ∧ 1 ≤ d ∧ d ≤ daysInMonth y m ∧ h ≤ 23 ∧ mi ≤ 59 ∧ s ≤ 59
      then some (mkKey y m d h mi s) else none
    | _, _, _, _, _, _ => none
  | _, _ => none

/- ### Flags (lines 212-249): a `u32` bit set, modelled as `Nat` -/

def Flags.AUTHORITY : Nat := 0b0000000000001
def Flags.BAD_EXIT : Nat := 0b0000000000010
def Flags.EXIT : Nat := 0b0000000000100
def Flags.FAST : Nat := 0b0000000001000
def Flags.GUARD : Nat := 0b0000000010000
def Flags.HS_DIR : Nat := 0b0000000100000
def Flags.MIDDLE_ONLY : Nat := 0b0000001000000
def Flags.NO_ED_CONSENSUS : Nat := 0b0000010000000
def Flags.STABLE : Nat := 0b0000100000000
def Flags.STALE_DESC : Nat := 0b0001000000000
def Flags.RUNNING : Nat := 0b0010000000000
def Flags.VALID : Nat := 0b0100000000000
def Flags.V2DIR : Nat := 0b1000000000000

/-- Model of `bitflags` `contains` (used at lines 167 and 202-203):
`(self.bits & other.bits) == other.bits`. -/
def Flags.contains (flags mask : Nat) : Bool :=
  flags &&& mask == mask

/-- Model of `bitflags` `insert` (line 117): bitwise or. -/
def Flags.insert (flags mask : Nat) : Nat :=
  flags ||| mask

/-- Model of `impl From<&str> for Flags` (lines 230-249).  The source maps
the 13 exact labels to their bits and hits `unreachable!()` — a panic —
on every other string; the panic arm is modelled by `none`. -/
def flagOfLabel (s : String) : Option Nat :=
  if s = "Authority" then some Flags.AUTHORITY
  else if s = "BadExit" then some Flags.BAD_EXIT
  else if s = "Exit" then some Flags.EXIT
  else if s = "Fast" then some Flags.FAST
  else if s = "Guard" then some Flags.GUARD
  else if s = "HSDir" then some Flags.HS_DIR
  else if s = "MiddleOnly" then some Flags.MIDDLE_ONLY
  else if s = "NoEdConsensus" then some Flags.NO_ED_CONSENSUS
  else if s = "Stable" then some Flags.STABLE
  else if s = "StaleDesc" then some Flags.STALE_DESC
  else if s = "Running" then some Flags.RUNNING
  else if s = "Valid" then some Flags.VALID
  else if s = "V2Dir" then some Flags.V2DIR
  else none

/- ### OnionRouter (lines 179-210) -/

structure OnionRouter where
  nickname : String
  ip : Ipv4
  or_port : Nat
  dir_port : Nat
  flags : Nat
deriving DecidableEq, Repr

/-- Lines 201-204. -/
def OnionRouter.is_stable (o : OnionRouter) : Bool :=
  Flags.contains o.flags (Flags.VALID ||| Flags.RUNNING ||| Flags.FAST ||| Flags.STABLE)

/-- Lines 206-209: `"0" represents "none"` for `dir_port`. -/
def OnionRouter.is_available (o : OnionRouter) : Bool :=
  o.is_stable && decide (0 < o.dir_port)

/- ### ParseError and Consensus (lines 142-154) -/

/-- Line 142-147.  The `chrono::ParseError` cause carried by
`DateTimeParseError` is dropped; only the field name is kept. -/
inductive ParseError where
  | UnsupportedDocumentFormatVersion (found : String)
  | UnexpectedVoteStatus (found : String)
  | DateTimeParseError (field : String)
deriving DecidableEq, Repr

structure Consensus where
  valid_after : Nat
  valid_until : Nat
  onion_routers : List OnionRouter
deriving DecidableEq, Repr

/-- Line 8. -/
def ONION_ROUTER_LIMIT : Nat := 100

/- ### The parser (lines 44-140) as a line-step machine

The loop body of `parse_consensus_document` becomes `step`, the mutable
locals become `PState`, the post-loop code becomes `finalizeState`, and
the loop itself becomes `parseLines`. -/

/-- The four mutable locals of `parse_consensus_document` (lines 45-48). -/
structure PState where
  valid_after : Option Nat
  valid_until : Option Nat
  tmp_onion_router : Option OnionRouter
  onion_routers : List OnionRouter
deriving DecidableEq, Repr

/-- Outcome of one loop iteration: a panic, an early `return Err`, a
`break` out of the loop, or falling through to the next line. -/
inductive StepRes where
  | crash
  | err (e : ParseError)
  | brk (st : PState)
  | cont (st : PState)
deriving DecidableEq, Repr

/-- Lines 103-111: build the new in-progress relay from an `r` line.
`rest` is the token list after the leading `"r"`, so the source indices
1, 5, 6, 7 become positions 0, 4, 5, 6 of `rest`.  Fewer than seven
tokens is an index-out-of-bounds panic; a malformed address or port is
an `expect` panic. -/
def buildOnionRouter (st : PState) (rest : List String) : StepRes :=
  match rest with
  | nickname :: _ :: _ :: _ :: ip_s :: or_s :: dir_s :: _ =>
    match parseIpv4? ip_s, parseU16? or_s, parseU16? dir_s with
    | some ip, some orp, some dirp =>
      let o : OnionRouter :=
        { nickname := nickname, ip := ip, or_port := orp, dir_port := dirp, flags := 0 }
      StepRes.cont { st with tmp_onion_router := some o }
    | _, _, _ => StepRes.crash
  | _ => StepRes.crash

/-- Line 117 applied to every token after the leading `"s"`;
an unknown label is the `unreachable!()` panic, modelled by `none`. -/
def insertFlags : Nat → List String → Option Nat
  | fs, [] => some fs
  | fs, l :: ls =>
    match flagOfLabel l with
    | some f => insertFlags (Flags.insert fs f) ls
    | none => none

/-- One iteration of the loop at lines 50-127, dispatching on `strs[0]`.
An empty token list panics at `strs[0]` (line 52); the `assert_eq!`
token-count checks panic on mismatch. -/
def step (st : PState) (strs : List String) : StepRes :=
  match strs with
  | [] => StepRes.crash
  | "network-status-version" :: rest =>
    match rest with
    | [v, fmt] =>
      if v ≠ "3" ∨ fmt ≠ "microdesc" then
        StepRes.err (ParseError.UnsupportedDocumentFormatVersion v)
      else StepRes.cont st
    | _ => StepRes.crash
  | "vote-status" :: rest =>
    match rest with
    | [v] =>
      if v ≠ "consensus" then StepRes.err (ParseError.UnexpectedVoteStatus v)
      else StepRes.cont st
    | _ => StepRes.crash
  | "valid-after" :: rest =>
    match rest with
    | [d, t] =>
      match parseDatetime? d t with
      | some ts => StepRes.cont { st with valid_after := some ts }
      | none => StepRes.err (ParseError.DateTimeParseError "valid-after")
    | _ => StepRes.crash
  | "valid-until" :: rest =>
    match rest with
    | [d, t] =>
      match parseDatetime? d t with
      | some ts => StepRes.cont { st with valid_until := some ts }
      | none => StepRes.err (ParseError.DateTimeParseError "valid-until")
    | _ => StepRes.crash
  | "r" :: rest =>
    match st.tmp_onion_router with
    | some o =>
      if o.is_available then
        if ONION_ROUTER_LIMIT ≤ (st.onion_routers ++ [o]).length then
          StepRes.brk { st with tmp_onion_router := none,
                                onion_routers := st.onion_routers ++ [o] }
        else buildOnionRouter { st with onion_routers := st.onion_routers ++ [o] } rest
      else buildOnionRouter st rest
    | none => buildOnionRouter st rest
  | "s" :: rest =>
    match st.tmp_onion_router with
    | none => StepRes.crash
    | some o =>
      match insertFlags o.flags rest with
      | some fs => StepRes.cont { st with tmp_onion_router := some { o with flags := fs } }
      | none => StepRes.crash
  | _ :: _ => StepRes.cont st

/-- Lines 129-133: push a still-in-progress available relay at end of input. -/
def finalOnionRouters (st : PState) : List OnionRouter :=
  match st.tmp_onion_router with
  | some o => if o.is_available then st.onion_routers ++ [o] else st.onion_routers
  | none => st.onion_routers

/-- Lines 129-139: push a still-in-progress available relay, then build the
`Consensus` — `valid_after.unwrap()` / `valid_until.unwrap()` panic
(`none`) when either field was never set. -/
def finalizeState (st : PState) : Option (Except ParseError Consensus) :=
  match st.valid_after, st.valid_until with
  | some a, some u =>
    some (Except.ok { valid_after := a, valid_until := u,
                      onion_routers := finalOnionRouters st })
  | _, _ => none

/-- The loop at lines 50-127 over the remaining lines. -/
def parseLines (st : PState) : List (List String) → Option (Except ParseError Consensus)
  | [] => finalizeState st
  | l :: ls =>
    match step st l with
    | StepRes.crash => none
    | StepRes.err e => some (Except.error e)
    | StepRes.brk st' => finalizeState st'
    | StepRes.cont st' => parseLines st' ls

/-- Prefix runs of the loop: iterate `step` over lines as long as every
iteration falls through to the next line (`none` as soon as an iteration
panics, returns early, or breaks).  Used to state which lines of a
document the loop reaches. -/
def runSteps (st : PState) : List (List String) → Option PState
  | [] => some st
  | l :: ls =>
    match step st l with
    | StepRes.cont st' => runSteps st' ls
    | _ => none

/-- Lines 45-48: all four locals start empty. -/
def initState : PState :=
  { valid_after := none, valid_until := none, tmp_onion_router := none,
    onion_routers := [] }

/-- Lines 50-51: the document split into lines, each split into tokens. -/
def tokenizeDocument (doc : String) : List (List String) :=
  (rustLines doc).map splitWhitespace

/-- Model of `parse_consensus_document` (lines 44-140).  `none` models a
panic; `some (Except.error e)` an early `return Err(e)`; `some (Except.ok c)`
the final `Ok`. -/
def parse_consensus_document (doc : String) : Option (Except ParseError Consensus) :=
  parseLines initState (tokenizeDocument doc)

/-- The timestamps of the successfully parsing `valid-after` lines of a
tokenized document: exactly the lines with the token shape and datetime
format the `valid-after` arm (lines 69-80) accepts. -/
def vaCandidates (ls : List (List String)) : List Nat :=
  ls.filterMap fun l =>
    match l with
    | ["valid-after", d, t] => parseDatetime? d t
    | _ => none

/-- The timestamps of the successfully parsing `valid-until` lines of a
tokenized document (lines 81-92). -/
def vuCandidates (ls : List (List String)) : List Nat :=
  ls.filterMap fun l =>
    match l with
    | ["valid-until", d, t] => parseDatetime? d t
    | _ => none

/- ### choose_guard_relay (lines 156-176) -/

/-- Model of the support of `rand`'s `Uniform::new(lo, hi)`: the sampled
values are exactly the half-open range `lo ≤ i < hi`. -/
def uniformSupport (lo hi i : Nat) : Prop := lo ≤ i ∧ i < hi

instance (lo hi i : Nat) : Decidable (uniformSupport lo hi i) :=
  inferInstanceAs (Decidable (lo ≤ i ∧ i < hi))

/-- The distribution of line 159, `Uniform::new(0, self.onion_routers.len() - 1)`:
indices are drawn from the half-open range `[0, len - 1)`. -/
def choose_guard_sample_support (c : Consensus) (i : Nat) : Prop :=
  uniformSupport 0 (c.onion_routers.length - 1) i

/-- The `while attempted < 100` loop (lines 163-173), with `fuel` the
remaining attempts and `draws k` the index produced by the `k`-th call to
`rng.sample(uniform)`.  An out-of-range index is skipped by the
`if let Some(or) = ... .get(i)` and still consumes an attempt. -/
def chooseLoop (ors : List OnionRouter) (draws : Nat → Nat) : Nat → Nat → Except String OnionRouter
  | _, 0 => Except.error "Could not find aguard node."
  | attempted, fuel + 1 =>
    match ors.get? (draws attempted) with
    | some o =>
      if Flags.contains o.flags Flags.GUARD then Except.ok o
      else chooseLoop ors draws (attempted + 1) fuel
    | none => chooseLoop ors draws (attempted + 1) fuel

/-- Model of `Consensus::choose_guard_relay` (lines 157-176), explicit in
the stream of sampled indices.  With no relays, `len() - 1` underflows
(a panic in a debug build); with exactly one relay, `Uniform::new(0, 0)`
panics on its empty range.  Both panics are modelled by `none`. -/
def Consensus.choose_guard_relay (c : Consensus) (draws : Nat → Nat) :
    Option (Except String OnionRouter) :=
  if c.onion_routers.length < 2 then none
  else some (chooseLoop c.onion_routers draws 0 100)

/- ### The cache (lines 10-40), with the cacache store made explicit -/

/-- The two fixed keys of the cacache store (lines 6-7): the raw document
body and the `valid_until` record, each possibly absent. -/
structure CacheStore where
  body : Option String
  valid_until : Option String
deriving DecidableEq, Repr

/-- Decimal digit to character. -/
def digitToChar (d : Nat) : Char :=
  match d with
  | 0 => '0' | 1 => '1' | 2 => '2' | 3 => '3' | 4 => '4'
  | 5 => '5' | 6 => '6' | 7 => '7' | 8 => '8' | _ => '9'

/-- Decimal digits of `n`, least significant first, with explicit fuel so
that the definition is structurally recursive. -/
def natDigitsAux : Nat → Nat → List Nat
  | 0, _ => []
  | fuel + 1, n => if n = 0 then [] else n % 10 :: natDigitsAux fuel (n / 10)

/-- Decimal digits of `n`, least significant first. -/
def natDigits (n : Nat) : List Nat := natDigitsAux n n

/-- Value of a least-significant-first decimal digit list. -/
def ofDigitsLSF : List Nat → Nat
  | [] => 0
  | d :: ds => d + 10 * ofDigitsLSF ds

/-- Model of chrono's `DateTime::to_rfc3339` at its interface: an injective
rendering of the datetime scale as text (decimal digits of the key,
least significant first). -/
def toRfc3339 (t : Nat) : String :=
  String.mk ((natDigits t).map digitToChar)

/-- Model of chrono's `DateTime::parse_from_rfc3339` at its interface: the
left inverse of `toRfc3339`, failing on any text it does not produce. -/
def parse_from_rfc3339 (s : String) : Option Nat :=
  if s.data.all Char.isDigit then some (ofDigitsLSF (s.data.map digitVal))
  else none

/-- Model of `cache_consensus_document` (lines 14-21): two unconditional
writes under the two fixed keys.  (The `cacache::write(..).unwrap()` I/O
panics have no counterpart in the explicit-store model, which cannot fail
to write.) -/
def cache_consensus_document (_store : CacheStore) (consensus : String)
    (valid_until : Nat) : CacheStore :=
  { body := some consensus, valid_until := some (toRfc3339 valid_until) }

/-- Model of `get_consensus_document_from_cache` (lines 23-40).  The outer
`Option` models panics: a stored `valid_until` record that does not parse
back (line 27 `unwrap`), or a missing body after a fresh `valid_until`
(line 39 `unwrap`), abort.  An absent `valid_until` record (the
`cacache::read` error branch, lines 29-32) is a plain miss `some none`. -/
def get_consensus_document_from_cache (store : CacheStore) (now : Nat) :
    Option (Option String) :=
  match store.valid_until with
  | none => some none
  | some s =>
    match parse_from_rfc3339 s with
    | none => none
    | some valid_until =>
      if valid_until < now then some none
      else
        match store.body with
        | none => none
        | some b => some (some b)

/- ### Concrete documents and values used by the claim theorems -/

/-- A document carrying only the two validity lines. -/
def demoDoc : String :=
  "valid-after 2024-01-01 00:00:00\nvalid-until 2024-01-02 00:00:00"

/-- The consensus `demoDoc` parses to. -/
def demoConsensus : Consensus :=
  { valid_after := mkKey 2024 1 1 0 0 0, valid_until := mkKey 2024 1 2 0 0 0,
    onion_routers := [] }

/-- A document in which neither `valid-after` nor `valid-until` appears. -/
def missingFieldsDoc : String :=
  "network-status-version 3 microdesc\nvote-status consensus"

/-- A document whose `s` line carries the unknown label `BogusFlag`. -/
def bogusFlagDoc : String :=
  "network-status-version 3 microdesc\nvote-status consensus\nvalid-after 2024-01-01 00:00:00\nvalid-until 2024-01-02 00:00:00\nr relayB AAAA BBBB 2024-01-01 10.0.0.2 9001 9030\ns Fast BogusFlag"

/-- A well-formed document whose `valid-after` timestamp is later than its
`valid-until` timestamp. -/
def reversedDoc : String :=
  "network-status-version 3 microdesc\nvote-status consensus\nvalid-after 2024-01-02 00:00:00\nvalid-until 2024-01-01 00:00:00"

/-- The consensus `reversedDoc` parses to. -/
def reversedConsensus : Consensus :=
  { valid_after := mkKey 2024 1 2 0 0 0, valid_until := mkKey 2024 1 1 0 0 0,
    onion_routers := [] }

/-- The end-to-end scenario document of the specification: one relay
`relayA` with flags `Fast Guard Running Stable Valid`. -/
def endToEndDoc : String :=
  "network-status-version 3 microdesc\nvote-status consensus\nvalid-after 2024-01-01 00:00:00\nvalid-until 2024-01-02 00:00:00\nr relayA AAAA BBBB 2024-01-01 10.0.0.1 9001 9030\ns Fast Guard Running Stable Valid"

/-- The relay parsed from the `r`/`s` block of `endToEndDoc`. -/
def relayA : OnionRouter :=
  { nickname := "relayA", ip := ⟨10, 0, 0, 1⟩, or_port := 9001, dir_port := 9030,
    flags := Flags.FAST ||| Flags.GUARD ||| Flags.RUNNING ||| Flags.STABLE ||| Flags.VALID }

/-- The consensus `endToEndDoc` parses to. -/
def endToEndConsensus : Consensus :=
  { valid_after := mkKey 2024 1 1 0 0 0, valid_until := mkKey 2024 1 2 0 0 0,
    onion_routers := [relayA] }

/-- The four stability flags. -/
def stableFlags : Nat :=
  Flags.VALID ||| Flags.RUNNING ||| Flags.FAST ||| Flags.STABLE

/-- An available relay without the Guard flag. -/
def orNoGuard : OnionRouter :=
  { nickname := "noguard", ip := ⟨10, 0, 0, 1⟩, or_port := 9001, dir_port := 9030,
    flags := stableFlags }

/-- An available relay with the Guard flag. -/
def orGuard : OnionRouter :=
  { nickname := "guard", ip := ⟨10, 0, 0, 2⟩, or_port := 9001, dir_port := 9030,
    flags := stableFlags ||| Flags.GUARD }

/-- A consensus whose only Guard relay sits at the last index. -/
def guardLastConsensus : Consensus :=
  { valid_after := 0, valid_until := 0, onion_routers := [orNoGuard, orGuard] }


/- ### Round trip of the timestamp codec -/

lemma natDigitsAux_lt : ∀ fuel n d, d ∈ natDigitsAux fuel n → d < 10 := by
  intro fuel
  induction fuel with
  | zero => intro n d h; simp [natDigitsAux] at h
  | succ f ih =>
    intro n d h
    unfold natDigitsAux at h
    by_cases h0 : n = 0
    · simp [h0] at h
    · rw [if_neg h0] at h
      rcases List.mem_cons.mp h with h1 | h1
      · subst h1; exact Nat.mod_lt n (by norm_num)
      · exact ih _ _ h1

lemma ofDigitsLSF_natDigitsAux : ∀ fuel n, n ≤ fuel → ofDigitsLSF (natDigitsAux fuel n) = n := by
  intro fuel
  induction fuel with
  | zero =>
    intro n h
    have : n = 0 := Nat.le_zero.mp h
    simp [this, natDigitsAux, ofDigitsLSF]
  | succ f ih =>
    intro n h
    by_cases h0 : n = 0
    · simp [h0, natDigitsAux, ofDigitsLSF]
    · have hdiv : n / 10 ≤ f := by
        have := Nat.div_lt_self (Nat.pos_of_ne_zero h0) (show 1 < 10 by norm_num)
        omega
      unfold natDigitsAux
      rw [if_neg h0]
      unfold ofDigitsLSF
      rw [ih _ hdiv]
      exact Nat.mod_add_div n 10

lemma digitToChar_isDigit : ∀ d, d < 10 → (digitToChar d).isDigit = true := by decide

lemma digitVal_digitToChar : ∀ d, d < 10 → digitVal (digitToChar d) = d := by decide

lemma parse_toRfc3339 (t : Nat) : parse_from_rfc3339 (toRfc3339 t) = some t := by
  have hdata : (toRfc3339 t).data = (natDigits t).map digitToChar := rfl
  unfold parse_from_rfc3339
  rw [hdata]
  have hall : ((natDigits t).map digitToChar).all Char.isDigit = true := by
    rw [List.all_eq_true]
    intro c hc
    obtain ⟨d, hd, rfl⟩ := List.mem_map.mp hc
    exact digitToChar_isDigit d (natDigitsAux_lt t t d hd)
  rw [if_pos hall]
  have hmap : ((natDigits t).map digitToChar).map digitVal = natDigits t := by
    rw [List.map_map]
    have hpt : ∀ d ∈ natDigits t, (digitVal ∘ digitToChar) d = d := fun d hd =>
      digitVal_digitToChar d (natDigitsAux_lt t t d hd)
    rw [List.map_congr_left hpt]
    exact List.map_id _
  rw [hmap]
  rw [show natDigits t = natDigitsAux t t from rfl, ofDigitsLSF_natDigitsAux t t (Nat.le_refl t)]

/- ### Structural facts about one parser step -/

lemma buildOnionRouter_spec (st : PState) (rest : List String) :
    (∃ o, buildOnionRouter st rest = StepRes.cont { st with tmp_onion_router := some o }) ∨
    buildOnionRouter st rest = StepRes.crash := by
  unfold buildOnionRouter
  split
  · split
    · exact Or.inl ⟨_, rfl⟩
    · exact Or.inr rfl
  · exact Or.inr rfl

lemma step_cont_spec (st : PState) (l : List String) (st' : PState)
    (h : step st l = StepRes.cont st') :
    (st'.onion_routers = st.onion_routers ∨
      ∃ o, o.is_available = true ∧ st'.onion_routers = st.onion_routers ++ [o] ∧
        st'.onion_routers.length < ONION_ROUTER_LIMIT) ∧
    (st'.valid_after = st.valid_after ∨
      ∃ d t v, l = ["valid-after", d, t] ∧ parseDatetime? d t = some v ∧
        st'.valid_after = some v) ∧
    (st'.valid_until = st.valid_until ∨
      ∃ d t v, l = ["valid-until", d, t] ∧ parseDatetime? d t = some v ∧
        st'.valid_until = some v) := by
  unfold step at h
  split at h
  · exact absurd h (by simp)
  · -- network-status-version
    split at h
    · split at h
      · exact absurd h (by simp)
      · cases h; exact ⟨Or.inl rfl, Or.inl rfl, Or.inl rfl⟩
    · exact absurd h (by simp)
  · -- vote-status
    split at h
    · split at h
      · exact absurd h (by simp)
      · cases h; exact ⟨Or.inl rfl, Or.inl rfl, Or.inl rfl⟩
    · exact absurd h (by simp)
  · -- valid-after
    split at h
    · split at h
      · cases h
        refine ⟨Or.inl rfl, Or.inr ⟨_, _, _, rfl, ?_, rfl⟩, Or.inl rfl⟩
        assumption
      · exact absurd h (by simp)
    · exact absurd h (by simp)
  · -- valid-until
    split at h
    · split at h
      · cases h
        refine ⟨Or.inl rfl, Or.inl rfl, Or.inr ⟨_, _, _, rfl, ?_, rfl⟩⟩
        assumption
      · exact absurd h (by simp)
    · exact absurd h (by simp)
  · -- r
    rename_i strs rest
    split at h
    · rename_i x o heq
      split at h
      · rename_i havail
        split at h
        · exact absurd h (by simp)
        · rename_i hlim
          rcases buildOnionRouter_spec
            { st with onion_routers := st.onion_routers ++ [o] } rest with
            ⟨o2, hb⟩ | hb
          · rw [hb] at h
            cases h
            refine ⟨Or.inr ⟨o, havail, rfl, ?_⟩, Or.inl rfl, Or.inl rfl⟩
            show (st.onion_routers ++ [o]).length < ONION_ROUTER_LIMIT
            simp only [ONION_ROUTER_LIMIT] at hlim ⊢
            omega
          · rw [hb] at h
            exact absurd h (by simp)
      · rcases buildOnionRouter_spec st rest with ⟨o2, hb⟩ | hb
        · rw [hb] at h
          cases h
          exact ⟨Or.inl rfl, Or.inl rfl, Or.inl rfl⟩
        · rw [hb] at h
          exact absurd h (by simp)
    · rcases buildOnionRouter_spec st rest with ⟨o2, hb⟩ | hb
      · rw [hb] at h
        cases h
        exact ⟨Or.inl rfl, Or.inl rfl, Or.inl rfl⟩
      · rw [hb] at h
        exact absurd h (by simp)
  · -- s
    split at h
    · exact absurd h (by simp)
    · split at h
      · cases h; exact ⟨Or.inl rfl, Or.inl rfl, Or.inl rfl⟩
      · exact absurd h (by simp)
  · -- unrecognized keyword
    cases h; exact ⟨Or.inl rfl, Or.inl rfl, Or.inl rfl⟩

lemma step_brk_spec (st : PState) (l : List String) (st' : PState)
    (h : step st l = StepRes.brk st') :
    ∃ o, o.is_available = true ∧ st'.onion_routers = st.onion_routers ++ [o] ∧
      st'.tmp_onion_router = none ∧ st'.valid_after = st.valid_after ∧
      st'.valid_until = st.valid_until := by
  unfold step at h
  split at h
  · exact absurd h (by simp)
  · split at h
    · split at h
      · exact absurd h (by simp)
      · exact absurd h (by simp)
    · exact absurd h (by simp)
  · split at h
    · split at h
      · exact absurd h (by simp)
      · exact absurd h (by simp)
    · exact absurd h (by simp)
  · split at h
    · split at h
      · exact absurd h (by simp)
      · exact absurd h (by simp)
    · exact absurd h (by simp)
  · split at h
    · split at h
      · exact absurd h (by simp)
      · exact absurd h (by simp)
    · exact absurd h (by simp)
  · -- r: the only arm that can break
    rename_i strs rest
    split at h
    · rename_i x o heq
      split at h
      · rename_i havail
        split at h
        · cases h
          exact ⟨o, havail, rfl, rfl, rfl, rfl⟩
        · rcases buildOnionRouter_spec
            { st with onion_routers := st.onion_routers ++ [o] } rest with
            ⟨o2, hb⟩ | hb <;> rw [hb] at h <;> exact absurd h (by simp)
      · rcases buildOnionRouter_spec st rest with ⟨o2, hb⟩ | hb <;>
          rw [hb] at h <;> exact absurd h (by simp)
    · rcases buildOnionRouter_spec st rest with ⟨o2, hb⟩ | hb <;>
        rw [hb] at h <;> exact absurd h (by simp)
  · split at h
    · exact absurd h (by simp)
    · split at h
      · exact absurd h (by simp)
      · exact absurd h (by simp)
  · exact absurd h (by simp)

/- ### Facts about finalization and whole runs of the loop -/

lemma finalOnionRouters_spec (st : PState) :
    finalOnionRouters st = st.onion_routers ∨
    ∃ o, o.is_available = true ∧ finalOnionRouters st = st.onion_routers ++ [o] := by
  unfold finalOnionRouters
  split
  · split
    · rename_i o heq havail
      exact Or.inr ⟨o, havail, rfl⟩
    · exact Or.inl rfl
  · exact Or.inl rfl

lemma finalOnionRouters_of_tmp_none (st : PState) (h : st.tmp_onion_router = none) :
    finalOnionRouters st = st.onion_routers := by
  unfold finalOnionRouters
  rw [h]

lemma finalizeState_ok_spec (st : PState) (c : Consensus)
    (h : finalizeState st = some (Except.ok c)) :
    st.valid_after = some c.valid_after ∧ st.valid_until = some c.valid_until ∧
    c.onion_routers = finalOnionRouters st := by
  unfold finalizeState at h
  split at h
  · rename_i a u heqa hequ
    simp only [Option.some.injEq] at h
    cases h
    exact ⟨heqa, hequ, rfl⟩
  · exact absurd h (by simp)

lemma parseLines_append (as : List (List String)) :
    ∀ (bs : List (List String)) (st st' : PState), runSteps st as = some st' →
      parseLines st (as ++ bs) = parseLines st' bs := by
  induction as with
  | nil =>
    intro bs st st' h
    simp only [runSteps, Option.some.injEq] at h
    subst h
    rfl
  | cons l as ih =>
    intro bs st st' h
    unfold runSteps at h
    cases hstep : step st l <;> rw [hstep] at h
    · exact absurd h (by simp)
    · exact absurd h (by simp)
    · exact absurd h (by simp)
    · rename_i st1
      simp only [List.cons_append, parseLines, hstep]
      exact ih bs st1 st' h

lemma parseLines_ok_all (p : OnionRouter → Bool)
    (hp : ∀ o, o.is_available = true → p o = true) :
    ∀ (ls : List (List String)) (st : PState) (c : Consensus),
      parseLines st ls = some (Except.ok c) → st.onion_routers.all p = true →
      c.onion_routers.all p = true := by
  intro ls
  induction ls with
  | nil =>
    intro st c h hall
    have hfin := finalizeState_ok_spec st c h
    rcases finalOnionRouters_spec st with hsame | ⟨o, ho, hpush⟩
    · rw [hfin.2.2, hsame]; exact hall
    · rw [hfin.2.2, hpush]
      simp only [List.all_append, List.all_cons, List.all_nil, Bool.and_true,
        Bool.and_eq_true]
      exact ⟨hall, hp o ho⟩
  | cons l ls ih =>
    intro st c h hall
    cases hstep : step st l <;> simp only [parseLines, hstep] at h
    · exact absurd h (by simp)
    · exact absurd h (by simp)
    · rename_i st1
      obtain ⟨o, ho, hors, htmp, _, _⟩ := step_brk_spec st l st1 hstep
      have hfin := finalizeState_ok_spec st1 c h
      rw [hfin.2.2, finalOnionRouters_of_tmp_none st1 htmp, hors]
      simp only [List.all_append, List.all_cons, List.all_nil, Bool.and_true,
        Bool.and_eq_true]
      exact ⟨hall, hp o ho⟩
    · rename_i st1
      refine ih st1 c h ?_
      rcases (step_cont_spec st l st1 hstep).1 with hsame | ⟨o, ho, hors, _⟩
      · rw [hsame]; exact hall
      · rw [hors]
        simp only [List.all_append, List.all_cons, List.all_nil, Bool.and_true,
          Bool.and_eq_true]
        exact ⟨hall, hp o ho⟩

lemma parseLines_ok_length :
    ∀ (ls : List (List String)) (st : PState) (c : Consensus),
      parseLines st ls = some (Except.ok c) →
      st.onion_routers.length < ONION_ROUTER_LIMIT →
      c.onion_routers.length ≤ ONION_ROUTER_LIMIT := by
  intro ls
  induction ls with
  | nil =>
    intro st c h hlen
    have hfin := finalizeState_ok_spec st c h
    rcases finalOnionRouters_spec st with hsame | ⟨o, _, hpush⟩
    · rw [hfin.2.2, hsame]; omega
    · rw [hfin.2.2, hpush]
      simp only [List.length_append, List.length_cons, List.length_nil]
      omega
  | cons l ls ih =>
    intro st c h hlen
    cases hstep : step st l <;> simp only [parseLines, hstep] at h
    · exact absurd h (by simp)
    · exact absurd h (by simp)
    · rename_i st1
      obtain ⟨o, _, hors, htmp, _, _⟩ := step_brk_spec st l st1 hstep
      have hfin := finalizeState_ok_spec st1 c h
      rw [hfin.2.2, finalOnionRouters_of_tmp_none st1 htmp, hors]
      simp only [List.length_append, List.length_cons, List.length_nil]
      omega
    · rename_i st1
      refine ih st1 c h ?_
      rcases (step_cont_spec st l st1 hstep).1 with hsame | ⟨o, _, _, hbound⟩
      · rw [hsame]; exact hlen
      · exact hbound

lemma mem_vaCandidates_cons (v : Nat) (l : List String) (ls : List (List String))
    (h : v ∈ vaCandidates ls) : v ∈ vaCandidates (l :: ls) := by
  unfold vaCandidates at h ⊢
  rw [List.filterMap_cons]
  split
  · exact h
  · exact List.mem_cons_of_mem _ h

lemma mem_vuCandidates_cons (v : Nat) (l : List String) (ls : List (List String))
    (h : v ∈ vuCandidates ls) : v ∈ vuCandidates (l :: ls) := by
  unfold vuCandidates at h ⊢
  rw [List.filterMap_cons]
  split
  · exact h
  · exact List.mem_cons_of_mem _ h

lemma mem_vaCandidates_head (v : Nat) (d t : String) (ls : List (List String))
    (h : parseDatetime? d t = some v) : v ∈ vaCandidates (["valid-after", d, t] :: ls) := by
  unfold vaCandidates
  rw [List.filterMap_cons]
  simp only [h]
  exact List.mem_cons_self _ _

lemma mem_vuCandidates_head (v : Nat) (d t : String) (ls : List (List String))
    (h : parseDatetime? d t = some v) : v ∈ vuCandidates (["valid-until", d, t] :: ls) := by
  unfold vuCandidates
  rw [List.filterMap_cons]
  simp only [h]
  exact List.mem_cons_self _ _

lemma parseLines_ok_va :
    ∀ (ls : List (List String)) (st : PState) (c : Consensus),
      parseLines st ls = some (Except.ok c) →
      st.valid_after = some c.valid_after ∨ c.valid_after ∈ vaCandidates ls := by
  intro ls
  induction ls with
  | nil =>
    intro st c h
    exact Or.inl (finalizeState_ok_spec st c h).1
  | cons l ls ih =>
    intro st c h
    cases hstep : step st l <;> simp only [parseLines, hstep] at h
    · exact absurd h (by simp)
    · exact absurd h (by simp)
    · rename_i st1
      obtain ⟨_, _, _, _, hva, _⟩ := step_brk_spec st l st1 hstep
      exact Or.inl (hva ▸ (finalizeState_ok_spec st1 c h).1)
    · rename_i st1
      rcases (step_cont_spec st l st1 hstep).2.1 with hsame | ⟨d, t, v, hl, hdt, hset⟩
      · rcases ih st1 c h with hleft | hright
        · exact Or.inl (hsame ▸ hleft)
        · exact Or.inr (mem_vaCandidates_cons _ l ls hright)
      · rcases ih st1 c h with hleft | hright
        · rw [hset] at hleft
          have hv : v = c.valid_after := Option.some.inj hleft
          subst hl
          exact Or.inr (mem_vaCandidates_head _ d t ls (hv ▸ hdt))
        · exact Or.inr (mem_vaCandidates_cons _ l ls hright)

lemma parseLines_ok_vu :
    ∀ (ls : List (List String)) (st : PState) (c : Consensus),
      parseLines st ls = some (Except.ok c) →
      st.valid_until = some c.valid_until ∨ c.valid_until ∈ vuCandidates ls := by
  intro ls
  induction ls with
  | nil =>
    intro st c h
    exact Or.inl (finalizeState_ok_spec st c h).2.1
  | cons l ls ih =>
    intro st c h
    cases hstep : step st l <;> simp only [parseLines, hstep] at h
    · exact absurd h (by simp)
    · exact absurd h (by simp)
    · rename_i st1
      obtain ⟨_, _, _, _, _, hvu⟩ := step_brk_spec st l st1 hstep
      exact Or.inl (hvu ▸ (finalizeState_ok_spec st1 c h).2.1)
    · rename_i st1
      rcases (step_cont_spec st l st1 hstep).2.2 with hsame | ⟨d, t, v, hl, hdt, hset⟩
      · rcases ih st1 c h with hleft | hright
        · exact Or.inl (hsame ▸ hleft)
        · exact Or.inr (mem_vuCandidates_cons _ l ls hright)
      · rcases ih st1 c h with hleft | hright
        · rw [hset] at hleft
          have hv : v = c.valid_until := Option.some.inj hleft
          subst hl
          exact Or.inr (mem_vuCandidates_head _ d t ls (hv ▸ hdt))
        · exact Or.inr (mem_vuCandidates_cons _ l ls hright)

/- ### Facts about the selection loop -/

lemma chooseLoop_congr (ors : List OnionRouter) (d1 d2 : Nat → Nat)
    (h : ∀ k, d1 k = d2 k) :
    ∀ (fuel attempted : Nat), chooseLoop ors d1 attempted fuel = chooseLoop ors d2 attempted fuel := by
  intro fuel
  induction fuel with
  | zero => intro a; rfl
  | succ f ih =>
    intro a
    simp only [chooseLoop, h a]
    cases ors.get? (d2 a)
    · exact ih (a + 1)
    · rename_i o
      split <;> simp [ih (a + 1)]

lemma chooseLoop_all_miss (ors : List OnionRouter) (draws : Nat → Nat)
    (h : ∀ k o, ors.get? (draws k) = some o → Flags.contains o.flags Flags.GUARD = false) :
    ∀ (fuel attempted : Nat),
      chooseLoop ors draws attempted fuel = Except.error "Could not find aguard node." := by
  intro fuel
  induction fuel with
  | zero => intro a; rfl
  | succ f ih =>
    intro a
    cases hg : ors.get? (draws a)
    · simp only [chooseLoop, hg]
      exact ih (a + 1)
    · rename_i o
      simp only [chooseLoop, hg, h a o hg]
      simp only [Bool.false_eq_true, if_false]
      exact ih (a + 1)

/- ### Additional concrete values for the cap witness -/

/-- A parser state holding 99 retained relays and an available in-progress
relay: the next `r` line pushes the 100th relay and breaks. -/
def st99 : PState :=
  { valid_after := some 0, valid_until := some 0,
    tmp_onion_router := some orNoGuard,
    onion_routers := List.replicate 99 orNoGuard }

/-- A syntactically valid `r` line (eight tokens). -/
def rLine : List String := ["r", "n", "i", "d", "p", "10.0.0.2", "1", "1"]

/-- The state `step st99 rLine` breaks with. -/
def brkSt99 : PState :=
  { valid_after := some 0, valid_until := some 0, tmp_onion_router := none,
    onion_routers := List.replicate 99 orNoGuard ++ [orNoGuard] }

/-- A document whose second line is blank. -/
def blankLineDoc : String := "vote-status consensus\n\nr x"

/- ### Claim theorems -/

/-- C1: the claim says a document in which the `valid-after` or `valid-until`
line never appears (or never parses) makes `parse_consensus_document` return
a `MissingField` error value rather than crash.  The code instead panics:
`valid_after.unwrap()` / `valid_until.unwrap()` at lines 136-137 abort on
such documents (modelled by `none`), and the `ParseError` enum (lines
142-147) has no `MissingField` variant at all.  This theorem evaluates the
code at a failing input: a document carrying the version and vote-status
lines but no validity lines. -/
theorem parse_missing_validity_crashes :
    parse_consensus_document missingFieldsDoc = none := rfl

/-- C2: the claim says the flag-label mapping sends exactly the 13 labels to
their bits and yields an `UnknownFlag` error on every other string, so that
`s Fast BogusFlag` makes parsing fail with `UnknownFlag("BogusFlag")`.  The
13-label half is true, but the `impl From<&str> for Flags` (lines 230-249)
hits `unreachable!()` — a panic, modelled by `none` — on every other label,
and `ParseError` has no `UnknownFlag` variant: a document with
`s Fast BogusFlag` crashes the parse instead of returning an error. -/
theorem flag_label_crashes_on_unknown :
    ["Authority", "BadExit", "Exit", "Fast", "Guard", "HSDir", "MiddleOnly",
      "NoEdConsensus", "Stable", "StaleDesc", "Running", "Valid", "V2Dir"].map
        flagOfLabel =
      [some Flags.AUTHORITY, some Flags.BAD_EXIT, some Flags.EXIT,
        some Flags.FAST, some Flags.GUARD, some Flags.HS_DIR,
        some Flags.MIDDLE_ONLY, some Flags.NO_ED_CONSENSUS, some Flags.STABLE,
        some Flags.STALE_DESC, some Flags.RUNNING, some Flags.VALID,
        some Flags.V2DIR] ∧
    flagOfLabel "BogusFlag" = none ∧
    parse_consensus_document bogusFlagDoc = none :=
  ⟨rfl, rfl, rfl⟩

/-- C3: for every input document, when `parse_consensus_document` returns
`Ok`, every relay of the returned sequence satisfies `is_available` (all of
Valid, Running, Fast, Stable, and a positive `dir_port`): relays are pushed
only behind the `is_available` checks at lines 95 and 130. -/
theorem parse_ok_relays_available (doc : String) (c : Consensus)
    (h : parse_consensus_document doc = some (Except.ok c)) :
    c.onion_routers.all OnionRouter.is_available = true :=
  parseLines_ok_all OnionRouter.is_available (fun _ hp => hp)
    (tokenizeDocument doc) initState c h rfl

/-- Witness for C3 at a concrete document. -/
theorem parse_ok_relays_available_witness :
    parse_consensus_document demoDoc = some (Except.ok demoConsensus) ∧
    demoConsensus.onion_routers.all OnionRouter.is_available = true :=
  ⟨rfl, parse_ok_relays_available demoDoc demoConsensus rfl⟩

/-- C4: for every input document, an `Ok` result carries at most
`ONION_ROUTER_LIMIT` (100) relays, and once the loop breaks at the cap
(lines 97-100) the remaining lines are not processed: after a breaking
line the result does not depend on the rest of the document. -/
theorem parse_ok_relay_cap :
    (∀ (doc : String) (c : Consensus),
      parse_consensus_document doc = some (Except.ok c) →
      c.onion_routers.length ≤ ONION_ROUTER_LIMIT) ∧
    (∀ (st : PState) (l : List String) (st' : PState)
        (ls ls' : List (List String)),
      step st l = StepRes.brk st' →
      parseLines st (l :: ls) = parseLines st (l :: ls')) := by
  constructor
  · intro doc c h
    exact parseLines_ok_length (tokenizeDocument doc) initState c h (by decide)
  · intro st l st' ls ls' h
    simp only [parseLines, h]

/-- Witness for C4: a concrete parse below the cap, and a concrete state
with 99 retained relays where the next `r` line breaks, making the lines
after it (here a line that would otherwise crash the parse) irrelevant. -/
theorem parse_ok_relay_cap_witness :
    parse_consensus_document demoDoc = some (Except.ok demoConsensus) ∧
    demoConsensus.onion_routers.length ≤ ONION_ROUTER_LIMIT ∧
    step st99 rLine = StepRes.brk brkSt99 ∧
    parseLines st99 [rLine, []] = parseLines st99 [rLine, ["s", "Bogus"]] :=
  ⟨rfl, parse_ok_relay_cap.1 demoDoc demoConsensus rfl, rfl,
    parse_ok_relay_cap.2 st99 rLine brkSt99 [[]] [["s", "Bogus"]] rfl⟩

/-- C5 counterexample: the claim says every `Ok` result satisfies
`valid_after ≤ valid_until`, but the parser never compares the two parsed
timestamps, so a well-formed document whose `valid-after` is later than
its `valid-until` parses to an `Ok` consensus violating the order. -/
theorem parse_reversed_order_ok :
    parse_consensus_document reversedDoc = some (Except.ok reversedConsensus) ∧
    ¬ (reversedConsensus.valid_after ≤ reversedConsensus.valid_until) :=
  ⟨rfl, by decide⟩

/-- C5 (amended): the parser copies the document's timestamps without
re-validating their order, so an `Ok` result satisfies
`valid_after ≤ valid_until` whenever every successfully parsing
`valid-after` timestamp of the document is at most every successfully
parsing `valid-until` timestamp. -/
theorem parse_ok_order_of_document_order (doc : String) (c : Consensus)
    (h : parse_consensus_document doc = some (Except.ok c))
    (hord : ∀ a ∈ vaCandidates (tokenizeDocument doc),
      ∀ u ∈ vuCandidates (tokenizeDocument doc), a ≤ u) :
    c.valid_after ≤ c.valid_until := by
  rcases parseLines_ok_va (tokenizeDocument doc) initState c h with hva | hva
  · exact absurd hva (by simp [initState])
  · rcases parseLines_ok_vu (tokenizeDocument doc) initState c h with hvu | hvu
    · exact absurd hvu (by simp [initState])
    · exact hord _ hva _ hvu

/-- Witness for the amended C5 at a concrete in-order document. -/
theorem parse_ok_order_of_document_order_witness :
    parse_consensus_document demoDoc = some (Except.ok demoConsensus) ∧
    demoConsensus.valid_after ≤ demoConsensus.valid_until :=
  ⟨rfl, parse_ok_order_of_document_order demoDoc demoConsensus rfl (by decide)⟩

/-- C6: the claim says a consensus containing a Guard relay makes
`choose_guard_relay` return a Guard relay with overwhelming probability
within 100 draws.  The sampler of line 159 is `Uniform::new(0, len - 1)`,
whose support excludes the last index, so on a consensus whose only Guard
relay is last, every draw sequence the sampler can produce yields the
failure value — the Guard relay is never found, with probability one. -/
theorem choose_guard_relay_misses_last_guard (draws : Nat → Nat)
    (h : ∀ k, choose_guard_sample_support guardLastConsensus (draws k)) :
    Flags.contains orGuard.flags Flags.GUARD = true ∧
    Consensus.choose_guard_relay guardLastConsensus draws =
      some (Except.error "Could not find aguard node.") := by
  refine ⟨by decide, ?_⟩
  have hz : ∀ k, draws k = 0 := by
    intro k
    have h2 := (h k).2
    rw [show guardLastConsensus.onion_routers.length - 1 = 1 from rfl] at h2
    omega
  unfold Consensus.choose_guard_relay
  rw [if_neg (by decide)]
  refine congrArg some ?_
  refine chooseLoop_all_miss _ draws ?_ 100 0
  intro k o hko
  rw [hz k] at hko
  have ho : o = orNoGuard := by
    rw [show guardLastConsensus.onion_routers.get? 0 = some orNoGuard from rfl] at hko
    exact (Option.some.inj hko).symm
  subst ho
  decide

/-- Witness for C6 with the constant draw sequence 0. -/
theorem choose_guard_relay_misses_last_guard_witness :
    Consensus.choose_guard_relay guardLastConsensus (fun _ => 0) =
      some (Except.error "Could not find aguard node.") :=
  (choose_guard_relay_misses_last_guard (fun _ => 0)
    (fun _ => ⟨Nat.zero_le 0, Nat.one_pos⟩)).2

/-- C7: the claim says the index drawn at each attempt ranges over the full
valid index range `[0, length)`, every index up to `length - 1` inclusive
being a possible draw.  The sampler of line 159 is
`Uniform::new(0, len - 1)`, whose support is `[0, length - 1)`: on a
two-relay consensus index 0 is a possible draw but the last index 1 is
not. -/
theorem choose_guard_sample_support_excludes_last :
    choose_guard_sample_support guardLastConsensus 0 ∧
    ¬ choose_guard_sample_support guardLastConsensus 1 := by
  show uniformSupport 0 (guardLastConsensus.onion_routers.length - 1) 0 ∧
    ¬ uniformSupport 0 (guardLastConsensus.onion_routers.length - 1) 1
  decide

/-- C8: the claim says the end-to-end document parses to a consensus with
exactly the one relay `relayA` and that `choose_guard_relay` then
deterministically returns `relayA`.  Parsing behaves as claimed, but with
a single relay `Uniform::new(0, 1 - 1)` is constructed on the empty range
`[0, 0)`, which panics (modelled by `none`): selection crashes instead of
returning `relayA`. -/
theorem end_to_end_single_relay_panics :
    parse_consensus_document endToEndDoc = some (Except.ok endToEndConsensus) ∧
    endToEndConsensus.onion_routers.map OnionRouter.nickname = ["relayA"] ∧
    Consensus.choose_guard_relay endToEndConsensus (fun _ => 0) = none :=
  ⟨rfl, rfl, rfl⟩

/-- C9: the cache round trip.  After `put(body, t)`, a `get(now)` with
`now ≤ t` returns the stored body unchanged and a `get(now)` with
`now > t` returns nothing; and whenever no `valid_until` record is
readable, `get` returns nothing (a miss, not an error). -/
theorem cache_round_trip (store : CacheStore) (body : String) (t now : Nat) :
    (now ≤ t →
      get_consensus_document_from_cache (cache_consensus_document store body t) now =
        some (some body)) ∧
    (t < now →
      get_consensus_document_from_cache (cache_consensus_document store body t) now =
        some none) ∧
    (∀ store2 : CacheStore, store2.valid_until = none →
      get_consensus_document_from_cache store2 now = some none) := by
  refine ⟨?_, ?_, ?_⟩
  · intro h
    unfold get_consensus_document_from_cache cache_consensus_document
    simp only [parse_toRfc3339]
    rw [if_neg (by omega)]
  · intro h
    unfold get_consensus_document_from_cache cache_consensus_document
    simp only [parse_toRfc3339]
    rw [if_pos h]
  · intro store2 h2
    unfold get_consensus_document_from_cache
    rw [h2]

/-- Witness for C9 at concrete values. -/
theorem cache_round_trip_witness :
    (3 ≤ 5 ∧
      get_consensus_document_from_cache
        (cache_consensus_document ⟨none, none⟩ "document body" 5) 3 =
        some (some "document body")) ∧
    (5 < 7 ∧
      get_consensus_document_from_cache
        (cache_consensus_document ⟨none, none⟩ "document body" 5) 7 = some none) ∧
    get_consensus_document_from_cache ⟨some "document body", none⟩ 3 = some none :=
  ⟨⟨by decide, (cache_round_trip ⟨none, none⟩ "document body" 5 3).1 (by decide)⟩,
    ⟨by decide, (cache_round_trip ⟨none, none⟩ "document body" 5 7).2.1 (by decide)⟩,
    (cache_round_trip ⟨none, none⟩ "document body" 5 3).2.2
      ⟨some "document body", none⟩ rfl⟩

/-- C10: the keyword dispatch reads token 0 of every line unconditionally
(`strs[0]`, line 52), so a document is parsed to completion only if every
line it reaches has at least one token: whenever the loop reaches an empty
or whitespace-only line — one whose token list is empty — it indexes out
of bounds and panics (`none`), producing no `Result`. -/
theorem parse_crashes_on_blank_line (doc : String) (pre : List (List Char))
    (l : List Char) (rest : List (List Char)) (st : PState)
    (h1 : rustLines doc = pre ++ l :: rest) (h2 : splitWhitespace l = [])
    (h3 : runSteps initState (pre.map splitWhitespace) = some st) :
    parse_consensus_document doc = none := by
  unfold parse_consensus_document tokenizeDocument
  rw [h1, List.map_append, List.map_cons, h2]
  rw [parseLines_append (pre.map splitWhitespace) _ initState st h3]
  rfl

/-- Witness for C10: a document whose second line is blank and whose first
line the loop survives. -/
theorem parse_crashes_on_blank_line_witness :
    rustLines blankLineDoc =
      ["vote-status consensus".data] ++ [] :: ["r x".data] ∧
    splitWhitespace [] = [] ∧
    parse_consensus_document blankLineDoc = none :=
  ⟨rfl, rfl,
    parse_crashes_on_blank_line blankLineDoc ["vote-status consensus".data]
      [] ["r x".data] initState rfl rfl rfl⟩
